import Mathlib

/-!
Verification development for the lesson-planner application.

The definitions below are a shallow embedding of the reconciliation logic of
the application: the emptiness predicate and field-merge loop of
`handleAnalyze`, the date/weekday derivation of `handleChange` (and of the
extraction service's day auto-fill), and the objective creation of
`addObjective`.  JavaScript runtime values that can flow through a record
field are modelled by the inductive type `Value`; a full record is a total
map from field names to values, an extraction result is a map to optional
values (absent key = `none`).
-/

namespace Spec2Proof

/-- One behavioral objective: identifier, taxonomy level, formulation,
evaluation method (all strings, as in the `Objective` type of the app). -/
structure Objective where
  id : String
  level : String
  formulation : String
  evaluation : String
deriving DecidableEq

/-- A JavaScript runtime value that can sit in a lesson-plan field:
`null`, `undefined`, a string, a sequence of strings (teaching methods or
aids), a sequence of objectives, or a single structured object. -/
inductive Value where
  | null
  | undef
  | str (s : String)
  | strList (l : List String)
  | objList (l : List Objective)
  | objv (o : Objective)
deriving DecidableEq

/-- The field names of `LessonPlan` (from `initialLessonPlan` in the source). -/
inductive Field where
  | id
  | emblem1
  | emblem2
  | yemenRepublic
  | ministry
  | educationArea
  | schoolName
  | day
  | date
  | subject
  | lessonTitle
  | grade
  | «section»
  | period
  | behavior
  | teachingMethods
  | teachingAids
  | lessonIntro
  | introType
  | activities
  | cognitiveObjectives
  | psychomotorObjectives
  | affectiveObjectives
  | teacherRole
  | studentRole
  | lessonContent
  | lessonClosure
  | closureType
  | homework
  | homeworkType
  | adminNotes
  | praise
  | teacherName
deriving DecidableEq

/-- A full in-edit record: every field holds some runtime value. -/
def LessonPlan : Type := Field → Value

/-- The extraction result (the `partialPlan` of `handleAnalyze`): a record
where a field is either absent (`none`) or present with a value. -/
def ExtractedPlan : Type := Field → Option Value

/-- Characters removed by JavaScript `String.prototype.trim`
(the common whitespace characters). -/
def isJsWhitespace (c : Char) : Bool :=
  c == ' ' || c == '\t' || c == '\n' || c == '\r' ||
  c == '\x0b' || c == '\x0c' || c == ' '

/-- JavaScript `value.trim()`: strip leading and trailing whitespace. -/
def jsTrim (s : String) : String :=
  ⟨((s.data.dropWhile isJsWhitespace).reverse.dropWhile isJsWhitespace).reverse⟩

/-- The emptiness predicate of `handleAnalyze` (src lines 227-231):
`value === null || value === undefined ||
 (typeof value === 'string' && value.trim() === '') ||
 (Array.isArray(value) && value.length === 0)`. -/
def isValueEmpty : Value → Bool
  | .null => true
  | .undef => true
  | .str s => jsTrim s == ""
  | .strList l => l.length == 0
  | .objList l => l.length == 0
  | .objv _ => false

/-- JavaScript truthiness of a runtime value (used by the guard
`partialPlan.day` on src line 247): `null`, `undefined` and the zero-length
string are falsy; every other value of this model is truthy. -/
def jsTruthy : Value → Bool
  | .null => false
  | .undef => false
  | .str s => !(s == "")
  | .strList _ => true
  | .objList _ => true
  | .objv _ => true

/-- JavaScript member read `plan[f]` on an extraction result: an absent key
reads as `undefined`. -/
def extractedGet (p : ExtractedPlan) (f : Field) : Value :=
  (p f).getD Value.undef

/-- The `forEach` loop of `handleAnalyze` (src lines 233-244): for every key
present in the extraction, skip `day`; otherwise overwrite the field exactly
when the extracted value is non-empty and the current value is empty. -/
def mergeLoop (prev : LessonPlan) (p : ExtractedPlan) : LessonPlan :=
  fun f =>
    match p f with
    | none => prev f
    | some aiValue =>
      if f = Field.day then prev f
      else if !isValueEmpty aiValue && isValueEmpty (prev f) then aiValue
      else prev f

/-- The full merge of `handleAnalyze` (src lines 224-252): the loop above,
then the date/day coupling
`if (mergedPlan.date !== prev.date && partialPlan.day) mergedPlan.day = partialPlan.day`. -/
def mergePlans (prev : LessonPlan) (p : ExtractedPlan) : LessonPlan :=
  fun f =>
    if f = Field.day then
      if mergeLoop prev p Field.date ≠ prev Field.date ∧
          jsTruthy (extractedGet p Field.day) = true then
        extractedGet p Field.day
      else mergeLoop prev p f
    else mergeLoop prev p f

/-- The fixed weekday labels, index 0 = Sunday .. 6 = Saturday
(`DAYS` in the source, line 461 and in `constants`). -/
def DAYS : List String :=
  ["الأحد", "الاثنين", "الثلاثاء", "الأربعاء", "الخميس", "الجمعة", "السبت"]

/-- Leap-year test of the proleptic Gregorian calendar. -/
def isLeapYear (y : Int) : Bool :=
  (y % 4 == 0 && y % 100 != 0) || (y % 400 == 0)

/-- Number of days of month `m` (1..12) of year `y`. -/
def daysInMonth (y : Int) (m : Nat) : Nat :=
  if m = 2 then (if isLeapYear y then 29 else 28)
  else if m = 4 ∨ m = 6 ∨ m = 9 ∨ m = 11 then 30
  else 31

/-- Numeric value of a decimal digit character, `none` otherwise. -/
def digitVal (c : Char) : Option Nat :=
  if c.isDigit then some (c.toNat - 48) else none

/-- Parse of the wire format `YYYY-MM-DD` into a valid calendar date
(year, month, day); `none` when the text is not a valid calendar date.
This is the set of date texts accepted by the ECMAScript date parser for
the application's wire format. -/
def parseYMD (s : String) : Option (Int × Nat × Nat) :=
  match s.data with
  | [y1, y2, y3, y4, h1, m1, m2, h2, d1, d2] =>
    if h1 = '-' ∧ h2 = '-' then
      match digitVal y1, digitVal y2, digitVal y3, digitVal y4,
            digitVal m1, digitVal m2, digitVal d1, digitVal d2 with
      | some a, some b, some c, some d, some e, some f, some g, some h =>
        let y : Int := ((a * 1000 + b * 100 + c * 10 + d : Nat) : Int)
        let m : Nat := e * 10 + f
        let dd : Nat := g * 10 + h
        if 1 ≤ m ∧ m ≤ 12 ∧ 1 ≤ dd ∧ dd ≤ daysInMonth y m then
          some (y, m, dd)
        else none
      | _, _, _, _, _, _, _, _ => none
    else none
  | _ => none

/-- Days since the Unix epoch (1970-01-01) of a Gregorian calendar date
(the civil-from-days algorithm used by every correct date library). -/
def daysFromCivil (y : Int) (m d : Nat) : Int :=
  let yAdj : Int := if m ≤ 2 then y - 1 else y
  let era : Int := Int.fdiv yAdj 400
  let yoe : Int := yAdj - era * 400
  let mp : Int := (m : Int) + (if 2 < m then -3 else 9)
  let doy : Int := Int.fdiv (153 * mp + 2) 5 + (d : Int) - 1
  let doe : Int := yoe * 365 + Int.fdiv yoe 4 - Int.fdiv yoe 100 + doy
  era * 146097 + doe - 719468

/-- The weekday index computed by
`new Date(value + 'T00:00:00').getUTCDay()` in a runtime whose local
timezone is `tz` minutes east of UTC: the text parses to local midnight of
the given civil day (an instant `tz` minutes before UTC midnight), and
`getUTCDay` reads the weekday of that instant in UTC
(0 = Sunday .. 6 = Saturday; 1970-01-01 was a Thursday, index 4).
`none` models the NaN produced on an unparseable date text. -/
def jsGetUTCDayIndex (tz : Int) (value : String) : Option Nat :=
  match parseYMD value with
  | none => none
  | some (y, m, d) =>
    let epochMin : Int := daysFromCivil y m d * 1440 - tz
    let utcDays : Int := Int.fdiv epochMin 1440
    some (Int.emod (utcDays + 4) 7).toNat

/-- JavaScript array indexing `l[i]`: out-of-range (including the NaN
index of an invalid date) reads as `undefined`. -/
def jsIndex (l : List String) (i : Nat) : Value :=
  match l.get? i with
  | some s => Value.str s
  | none => Value.undef

/-- The `name === 'date'` branch of `handleChange` (src lines 267-277) in a
runtime with timezone offset `tz` minutes east of UTC:
`dateObj = new Date(value + 'T00:00:00')` (never throws; invalid text gives
an Invalid Date), `dayIndex = dateObj.getUTCDay()` (NaN when invalid),
`dayName = DAYS[dayIndex]` (`undefined` when the index is NaN), then
`{ ...prev, date: value, day: dayName }`.  The `catch` fallback of the
source is unreachable because the `Date` constructor does not throw. -/
def handleChangeDate (tz : Int) (prev : LessonPlan) (value : String) : LessonPlan :=
  fun f =>
    if f = Field.date then Value.str value
    else if f = Field.day then
      match jsGetUTCDayIndex tz value with
      | some i => jsIndex DAYS i
      | none => Value.undef
    else prev f

/-- Decimal digit characters of `n`, most significant first (empty for 0);
`fuel` bounds the recursion depth and any `fuel ≥ n` is enough. -/
def toDecimalDigits : Nat → Nat → List Char
  | 0, _ => []
  | _ + 1, 0 => []
  | fuel + 1, n + 1 =>
    toDecimalDigits fuel ((n + 1) / 10) ++ [Char.ofNat (48 + (n + 1) % 10)]

/-- JavaScript number-to-string conversion of a nonnegative integer, as
produced by the template literal of `addObjective`. -/
def jsNatRepr (n : Nat) : String :=
  if n = 0 then "0" else ⟨toDecimalDigits n n⟩

/-- The identifier stamped by `addObjective` (src line 304):
the template literal `new-<type>-<Date.now()>`. -/
def newObjectiveId (ty : String) (now : Nat) : String :=
  "new-" ++ ty ++ "-" ++ jsNatRepr now

/-- `addObjective` (src lines 302-306) at wall-clock millisecond `now`:
append a fresh objective with blank level/formulation/evaluation. -/
def addObjective (ty : String) (now : Nat) (objs : List Objective) : List Objective :=
  objs ++ [{ id := newObjectiveId ty now, level := "", formulation := "", evaluation := "" }]

/-- A record whose date is blank and whose day holds the Sunday label;
all other fields blank (the shape of the spec's weekday-coupling example). -/
def currentDS : LessonPlan :=
  fun f =>
    if f = Field.date then Value.str ""
    else if f = Field.day then Value.str "الأحد"
    else Value.str ""

/-- The extraction of the spec's weekday-coupling example:
date 2024-03-04 and day Monday, nothing else. -/
def extractedDS : ExtractedPlan :=
  fun f =>
    if f = Field.date then some (Value.str "2024-03-04")
    else if f = Field.day then some (Value.str "الاثنين")
    else none

/-- A record whose lesson title is filled and everything else blank. -/
def currentTitled : LessonPlan :=
  fun f => if f = Field.lessonTitle then Value.str "الفاعل" else Value.str ""

/-- An extraction supplying a lesson title only. -/
def extractedTitle : ExtractedPlan :=
  fun f => if f = Field.lessonTitle then some (Value.str "المفعول به") else none

/-- A fully blank record (date and day both empty). -/
def currentBlank : LessonPlan := fun _ => Value.str ""

/-- An extraction supplying a day directly and no date at all. -/
def extractedDayOnly : ExtractedPlan :=
  fun f => if f = Field.day then some (Value.str "الاثنين") else none

/-- An extraction whose date is usable but whose day is a whitespace-only
string (empty per the emptiness predicate, yet truthy). -/
def extractedWsDay : ExtractedPlan :=
  fun f =>
    if f = Field.date then some (Value.str "2024-03-04")
    else if f = Field.day then some (Value.str " ")
    else none

/-! ## Helper lemmas about the merge -/

/-- The merge loop never touches the `day` field. -/
theorem mergeLoop_day (c : LessonPlan) (e : ExtractedPlan) :
    mergeLoop c e Field.day = c Field.day := by
  unfold mergeLoop
  cases e Field.day <;> simp

/-- The merge loop keeps any field whose current value is non-empty. -/
theorem mergeLoop_stable (c : LessonPlan) (e : ExtractedPlan) (f : Field)
    (h : isValueEmpty (c f) = false) : mergeLoop c e f = c f := by
  unfold mergeLoop
  cases e f with
  | none => rfl
  | some v =>
    by_cases hd : f = Field.day
    · simp [hd]
    · simp [hd, h]

/-- Outside the `day` field, the full merge agrees with the merge loop. -/
theorem mergePlans_ne_day (c : LessonPlan) (e : ExtractedPlan) (f : Field)
    (hf : f ≠ Field.day) : mergePlans c e f = mergeLoop c e f := by
  unfold mergePlans
  simp [hf]

/-- The full merge agrees with the merge loop on the `date` field. -/
theorem mergePlans_date (c : LessonPlan) (e : ExtractedPlan) :
    mergePlans c e Field.date = mergeLoop c e Field.date :=
  mergePlans_ne_day c e Field.date (by decide)

/-- Pointwise unfolding equation for `mergeLoop`. -/
theorem mergeLoop_eq (prev : LessonPlan) (p : ExtractedPlan) (f : Field) :
    mergeLoop prev p f =
      match p f with
      | none => prev f
      | some aiValue =>
        if f = Field.day then prev f
        else if !isValueEmpty aiValue && isValueEmpty (prev f) then aiValue
        else prev f := rfl

/-- Pointwise unfolding equation for `mergePlans`. -/
theorem mergePlans_eq (prev : LessonPlan) (p : ExtractedPlan) (f : Field) :
    mergePlans prev p f =
      if f = Field.day then
        if mergeLoop prev p Field.date ≠ prev Field.date ∧
            jsTruthy (extractedGet p Field.day) = true then
          extractedGet p Field.day
        else mergeLoop prev p f
      else mergeLoop prev p f := rfl

/-- Running the merge loop a second time over an already-merged record is a
no-op: each field is either still the current value (so the loop behaves as
it did the first time, keeping it) or was just filled with a non-empty
extracted value (so the emptiness guard now rejects it). -/
theorem mergeLoop_second (c : LessonPlan) (e : ExtractedPlan) (f : Field) :
    mergeLoop (mergePlans c e) e f = mergePlans c e f := by
  by_cases hd : f = Field.day
  · subst hd
    exact mergeLoop_day (mergePlans c e) e
  · rw [mergePlans_ne_day c e f hd, mergeLoop_eq (mergePlans c e) e f]
    cases h : e f with
    | none => exact mergePlans_ne_day c e f hd
    | some v =>
      simp only [if_neg hd]
      rw [mergePlans_ne_day c e f hd]
      by_cases hv : isValueEmpty v = true
      · simp [hv]
      · rw [Bool.not_eq_true] at hv
        by_cases hc : isValueEmpty (c f) = true
        · have hm : mergeLoop c e f = v := by
            rw [mergeLoop_eq c e f, h]
            simp [hd, hv, hc]
          rw [hm]
          simp [hv]
        · rw [Bool.not_eq_true] at hc
          have hm : mergeLoop c e f = c f := mergeLoop_stable c e f hc
          rw [hm]
          simp [hc]

/-! ## Claim theorems -/

/-- C1 (counterexample): the never-overwrite rule as stated fails on the
`day` field: in the weekday-coupling situation the merge replaces a present
`day` value.  Here `currentDS` has `day` present (the Sunday label) yet the
merged result's `day` differs from it. -/
theorem never_overwrite_fails_on_day :
    isValueEmpty (currentDS Field.day) = false ∧
    mergePlans currentDS extractedDS Field.day ≠ currentDS Field.day := by
  decide

/-- C1 (amended): for every field other than `day`, if the current value is
present per the emptiness predicate then the merge keeps it, whatever the
extraction holds. -/
theorem never_overwrite_except_day (c : LessonPlan) (e : ExtractedPlan)
    (f : Field) (hf : f ≠ Field.day) (h : isValueEmpty (c f) = false) :
    mergePlans c e f = c f := by
  rw [mergePlans_ne_day c e f hf]
  exact mergeLoop_stable c e f h

/-- Witness for `never_overwrite_except_day` at a concrete input. -/
theorem never_overwrite_except_day_witness :
    Field.lessonTitle ≠ Field.day ∧
    isValueEmpty (currentTitled Field.lessonTitle) = false ∧
    mergePlans currentTitled extractedTitle Field.lessonTitle =
      currentTitled Field.lessonTitle :=
  ⟨by decide, by decide,
    never_overwrite_except_day currentTitled extractedTitle Field.lessonTitle
      (by decide) (by decide)⟩

/-- C2: the weekday-coupling example: with current date blank and day
present (Sunday), an extraction carrying date 2024-03-04 and day Monday
yields a merged record whose date is 2024-03-04 and whose day is Monday —
the extraction's day wins because the date was freshly accepted. -/
theorem weekday_coupling_overrides_day :
    isValueEmpty (currentDS Field.date) = true ∧
    isValueEmpty (currentDS Field.day) = false ∧
    mergePlans currentDS extractedDS Field.date = Value.str "2024-03-04" ∧
    mergePlans currentDS extractedDS Field.day = Value.str "الاثنين" := by
  decide

/-- C3: fill-gap: for every field other than `day`, if the current value is
empty and the extracted value is present, the merge takes the extracted
value. -/
theorem fill_gap (c : LessonPlan) (e : ExtractedPlan) (f : Field)
    (hf : f ≠ Field.day) (hc : isValueEmpty (c f) = true)
    (he : isValueEmpty (extractedGet e f) = false) :
    mergePlans c e f = extractedGet e f := by
  rw [mergePlans_ne_day c e f hf]
  unfold mergeLoop
  unfold extractedGet at he ⊢
  cases h : e f with
  | none => rw [h] at he; simp [isValueEmpty] at he
  | some v =>
    rw [h] at he
    simp only [Option.getD_some] at he ⊢
    simp [hf, he, hc]

/-- Witness for `fill_gap` at a concrete input. -/
theorem fill_gap_witness :
    Field.lessonTitle ≠ Field.day ∧
    isValueEmpty (currentBlank Field.lessonTitle) = true ∧
    isValueEmpty (extractedGet extractedTitle Field.lessonTitle) = false ∧
    mergePlans currentBlank extractedTitle Field.lessonTitle =
      extractedGet extractedTitle Field.lessonTitle :=
  ⟨by decide, by decide, by decide,
    fill_gap currentBlank extractedTitle Field.lessonTitle
      (by decide) (by decide) (by decide)⟩

/-- C9: the merge is idempotent: applying the same extraction a second time
to the already-merged record changes nothing. -/
theorem merge_idempotent (c : LessonPlan) (e : ExtractedPlan) :
    mergePlans (mergePlans c e) e = mergePlans c e := by
  funext f
  by_cases hd : f = Field.day
  · subst hd
    rw [mergePlans_eq (mergePlans c e) e Field.day,
      mergeLoop_second c e Field.date]
    simp [mergeLoop_day]
  · rw [mergePlans_ne_day (mergePlans c e) e f hd]
    exact mergeLoop_second c e f

/-- Elements left by `dropWhile p` all satisfy `p` exactly when the whole
list does (the dropped ones satisfy `p` by definition). -/
theorem all_dropWhile_iff (p : Char → Bool) (l : List Char) :
    (∀ x ∈ l.dropWhile p, p x = true) ↔ ∀ x ∈ l, p x = true := by
  constructor
  · intro h x hx
    have hx2 : x ∈ l.takeWhile p ++ l.dropWhile p := by
      rw [List.takeWhile_append_dropWhile]
      exact hx
    rcases List.mem_append.mp hx2 with h1 | h2
    · exact List.mem_takeWhile_imp h1
    · exact h x h2
  · intro h x hx
    have hx2 : x ∈ l := by
      rw [← List.takeWhile_append_dropWhile p l]
      exact List.mem_append_right _ hx
    exact h x hx2

/-- `trim` returns the zero-length string exactly when every character of
the text is whitespace. -/
theorem jsTrim_eq_empty_iff (s : String) :
    jsTrim s = "" ↔ ∀ c ∈ s.data, isJsWhitespace c = true := by
  rw [String.ext_iff]
  show (((s.data.dropWhile isJsWhitespace).reverse.dropWhile
      isJsWhitespace).reverse = ([] : List Char)) ↔ _
  rw [List.reverse_eq_nil_iff, List.dropWhile_eq_nil_iff]
  constructor
  · intro h
    rw [← all_dropWhile_iff isJsWhitespace s.data]
    intro x hx
    exact h x (List.mem_reverse.mpr hx)
  · intro h x hx
    exact (all_dropWhile_iff isJsWhitespace s.data).mpr h x
      (List.mem_reverse.mp hx)

/-- C4: `isValueEmpty` returns `true` exactly for the absence markers
(`null`/`undefined`), whitespace-only text (including the zero-length
string), and zero-length sequences; every other value — non-blank text,
a non-empty sequence, a structured object — is present. -/
theorem isValueEmpty_characterization (v : Value) :
    isValueEmpty v = true ↔
      v = Value.null ∨ v = Value.undef ∨
      (∃ s, v = Value.str s ∧ ∀ c ∈ s.data, isJsWhitespace c = true) ∨
      v = Value.strList [] ∨ v = Value.objList [] := by
  cases v with
  | null => simp [isValueEmpty]
  | undef => simp [isValueEmpty]
  | str s =>
    simp only [isValueEmpty, beq_iff_eq, jsTrim_eq_empty_iff]
    constructor
    · intro h
      exact Or.inr (Or.inr (Or.inl ⟨s, rfl, h⟩))
    · rintro (h | h | ⟨t, ht, hall⟩ | h | h) <;>
        first
        | cases h
        | (cases ht; exact hall)
  | strList l =>
    simp only [isValueEmpty]
    constructor
    · intro h
      have : l = [] := List.length_eq_zero.mp (by simpa using h)
      subst this
      exact Or.inr (Or.inr (Or.inr (Or.inl rfl)))
    · rintro (h | h | ⟨t, ht, hall⟩ | h | h) <;> first | cases h | cases ht
      rfl
  | objList l =>
    simp only [isValueEmpty]
    constructor
    · intro h
      have : l = [] := List.length_eq_zero.mp (by simpa using h)
      subst this
      exact Or.inr (Or.inr (Or.inr (Or.inr rfl)))
    · rintro (h | h | ⟨t, ht, hall⟩ | h | h) <;> first | cases h | cases ht
      rfl
  | objv o =>
    simp [isValueEmpty]

/-- C5 (code evaluated at the failing input): entering the unparseable date
text `not-a-date` does not raise, but it does not leave the weekday label
unchanged either: the `Date` constructor yields an Invalid Date instead of
throwing, `getUTCDay()` yields NaN, `DAYS[NaN]` is `undefined`, and the
handler stores that `undefined` into `day`, erasing the prior Sunday
label.  The `catch` fallback that would have kept `day` is unreachable. -/
theorem invalid_date_entry_clears_day :
    currentDS Field.day = Value.str "الأحد" ∧
    handleChangeDate 0 currentDS "not-a-date" Field.day = Value.undef ∧
    handleChangeDate 0 currentDS "not-a-date" Field.day ≠ currentDS Field.day := by
  decide

/-- C6 (code evaluated at the failing input): the weekday derivation is not
independent of the runtime timezone: the handler parses `2024-03-03` (a
Sunday) as *local* midnight but then reads the weekday of that instant *in
UTC*.  At offset 0 (UTC) it returns the Sunday label, but at offset +180
minutes (UTC+3, the application's own locale) local midnight is still
Saturday in UTC and the handler returns the Saturday label. -/
theorem weekday_derivation_timezone_dependent :
    handleChangeDate 0 currentBlank "2024-03-03" Field.day = Value.str "الأحد" ∧
    handleChangeDate 180 currentBlank "2024-03-03" Field.day = Value.str "السبت" := by
  decide

/-- C7 (counterexample): with no usable date anywhere and `day` empty in the
current record, an extraction that supplies a weekday label directly does
*not* end up in the result: the loop skips `day` unconditionally and the
coupling fires only when the date changed, so the extracted day is dropped. -/
theorem day_fallback_without_date_fails :
    isValueEmpty (currentBlank Field.date) = true ∧
    isValueEmpty (currentBlank Field.day) = true ∧
    extractedDayOnly Field.date = none ∧
    isValueEmpty (extractedGet extractedDayOnly Field.day) = false ∧
    mergePlans currentBlank extractedDayOnly Field.day ≠
      extractedGet extractedDayOnly Field.day := by
  decide

/-- C7 (amended): whenever the merge leaves the date unchanged — in
particular when the extraction supplies no usable date — the merged `day`
equals the current `day`; a directly-supplied extracted day is ignored. -/
theorem day_unchanged_when_date_unchanged (c : LessonPlan) (e : ExtractedPlan)
    (h : mergePlans c e Field.date = c Field.date) :
    mergePlans c e Field.day = c Field.day := by
  have hl : mergeLoop c e Field.date = c Field.date := by
    rw [← mergePlans_date c e]
    exact h
  rw [mergePlans_eq c e Field.day]
  simp [hl, mergeLoop_day]

/-- Witness for `day_unchanged_when_date_unchanged` at a concrete input. -/
theorem day_unchanged_when_date_unchanged_witness :
    mergePlans currentBlank extractedDayOnly Field.date =
      currentBlank Field.date ∧
    mergePlans currentBlank extractedDayOnly Field.day =
      currentBlank Field.day :=
  ⟨by decide,
    day_unchanged_when_date_unchanged currentBlank extractedDayOnly (by decide)⟩

/-- C8 (counterexample): the weekday coupling is *not* gated by the
emptiness predicate: a whitespace-only extracted day is empty per the
predicate yet truthy, so when the date is freshly accepted the coupling
copies the whitespace string over the present current day. -/
theorem coupling_gate_is_not_emptiness :
    isValueEmpty (extractedGet extractedWsDay Field.day) = true ∧
    mergePlans currentDS extractedWsDay Field.day = Value.str " " ∧
    mergePlans currentDS extractedWsDay Field.day ≠ currentDS Field.day := by
  decide

/-- C8 (amended): the coupling's gate on the extracted day is JavaScript
truthiness, not the emptiness predicate: whenever the extracted day is
falsy (absent, null, undefined, or the zero-length string) the merged `day`
equals the current `day`. -/
theorem day_unchanged_when_extracted_day_falsy (c : LessonPlan)
    (e : ExtractedPlan) (h : jsTruthy (extractedGet e Field.day) = false) :
    mergePlans c e Field.day = c Field.day := by
  rw [mergePlans_eq c e Field.day]
  simp [h, mergeLoop_day]

/-- Witness for `day_unchanged_when_extracted_day_falsy` at a concrete
input. -/
theorem day_unchanged_when_extracted_day_falsy_witness :
    jsTruthy (extractedGet extractedTitle Field.day) = false ∧
    mergePlans currentDS extractedTitle Field.day = currentDS Field.day :=
  ⟨by decide,
    day_unchanged_when_extracted_day_falsy currentDS extractedTitle (by decide)⟩

/-- Big-endian decimal decoding of a character list (inverse of the
decimal printer on its range). -/
def decodeDecimal (l : List Char) : Nat :=
  l.foldl (fun acc c => acc * 10 + (c.toNat - 48)) 0

/-- The code of the character printed for the digit `m`. -/
theorem char_toNat_digit (m : Nat) (hm : m < 10) :
    (Char.ofNat (48 + m)).toNat = 48 + m := by
  interval_cases m <;> decide

/-- Peeling the last digit off a decimal decoding. -/
theorem decodeDecimal_append_digit (l : List Char) (c : Char) :
    decodeDecimal (l ++ [c]) = decodeDecimal l * 10 + (c.toNat - 48) := by
  unfold decodeDecimal
  rw [List.foldl_append]
  rfl

/-- Decoding inverts the decimal printer whenever the fuel suffices. -/
theorem decode_toDecimalDigits :
    ∀ fuel n : Nat, n ≤ fuel → decodeDecimal (toDecimalDigits fuel n) = n := by
  intro fuel
  induction fuel with
  | zero =>
    intro n hn
    interval_cases n
    rfl
  | succ fuel ih =>
    intro n hn
    match n with
    | 0 => rfl
    | k + 1 =>
      rw [show toDecimalDigits (fuel + 1) (k + 1) =
          toDecimalDigits fuel ((k + 1) / 10) ++
            [Char.ofNat (48 + (k + 1) % 10)] from rfl]
      rw [decodeDecimal_append_digit]
      have hlt : (k + 1) / 10 < k + 1 := Nat.div_lt_self (Nat.succ_pos k) (by omega)
      have hdiv : (k + 1) / 10 ≤ fuel := by omega
      rw [ih _ hdiv]
      rw [char_toNat_digit _ (Nat.mod_lt _ (by omega))]
      omega

/-- Decoding inverts the JavaScript number-to-string conversion. -/
theorem decode_jsNatRepr (n : Nat) : decodeDecimal (jsNatRepr n).data = n := by
  unfold jsNatRepr
  by_cases h : n = 0
  · subst h
    decide
  · rw [if_neg h]
    exact decode_toDecimalDigits n n le_rfl

/-- Two distinct nonnegative integers print to distinct strings. -/
theorem jsNatRepr_inj {m n : Nat} (h : jsNatRepr m = jsNatRepr n) : m = n := by
  have h2 := congrArg (fun s => decodeDecimal s.data) h
  simpa [decode_jsNatRepr] using h2

/-- The objective identifier template determines the timestamp. -/
theorem newObjectiveId_inj (ty : String) {t1 t2 : Nat}
    (h : newObjectiveId ty t1 = newObjectiveId ty t2) : t1 = t2 := by
  unfold newObjectiveId at h
  have hd := congrArg String.data h
  simp only [String.data_append] at hd
  have h1 := List.append_right_injective
    ((("new-").data ++ ty.data) ++ ("-").data) hd
  exact jsNatRepr_inj (String.ext h1)

/-- C10 (counterexample): two consecutive add-objective operations that
fall in the same wall-clock millisecond stamp the *same* identifier (the
identifier embeds only the creation type and `Date.now()`), so the produced
sequence has duplicate identifiers. -/
theorem objective_ids_collide_same_millisecond :
    (addObjective "cognitive" 1000 (addObjective "cognitive" 1000 [])).map
        Objective.id =
      ["new-cognitive-1000", "new-cognitive-1000"] ∧
    ¬ ((addObjective "cognitive" 1000 (addObjective "cognitive" 1000 [])).map
        Objective.id).Nodup := by
  decide

/-- C10 (amended): two consecutive add-objective operations on an empty
sequence produce pairwise distinct identifiers provided their `Date.now()`
millisecond readings differ. -/
theorem objective_ids_distinct (ty : String) (t1 t2 : Nat) (h : t1 ≠ t2) :
    ((addObjective ty t2 (addObjective ty t1 [])).map Objective.id).Nodup := by
  simp [addObjective, List.nodup_cons]
  intro heq
  exact h (newObjectiveId_inj ty heq)

/-- Witness for `objective_ids_distinct` at concrete timestamps. -/
theorem objective_ids_distinct_witness :
    (1000 : Nat) ≠ 1001 ∧
    ((addObjective "cognitive" 1001 (addObjective "cognitive" 1000 [])).map
      Objective.id).Nodup :=
  ⟨by decide, objective_ids_distinct "cognitive" 1000 1001 (by decide)⟩

end Spec2Proof
